import Mathlib

/-!
Shallow embedding of the pipeline-supervisor logic of the radio livestream
backend (`backend/src/services/ffmpeg-supervisor.ts`) and of the now-playing
track parser (`backend/src/services/now-playing.ts`).

The embedding models, per station, the in-memory record kept in the
supervisor's `processes` map, the pending entry of the `restartTimers` map,
and the now-playing poller flag.  Machine-level effects (actual process
spawning, file writes, event emission, database status updates) are elided;
the state transitions, branch conditions, messages and the backoff arithmetic
are translated directly from the source.  JavaScript number arithmetic on
durations and delays is modelled with exact rationals.
-/

namespace RadioApp

/-- Lifecycle status values of `StationProcess.status` in the source
(`'stopped' | 'starting' | 'running' | 'restarting' | 'error'`). -/
inductive Status
  | stopped
  | starting
  | running
  | restarting
  | error
deriving DecidableEq, Repr

/-- The per-station record stored in the supervisor's `processes` map.
`hasFFmpeg` models whether the `ffmpeg` field holds a process handle
(`null` or not); pid and start timestamp are elided. -/
structure StationProcess where
  hasFFmpeg : Bool
  status : Status
  restartCount : Nat
  lastError : String
deriving DecidableEq, Repr

/-- The resilience-related columns of the `stations` row read by the
supervisor: `auto_restart`, `restart_delay_sec`, `max_restart_attempts`. -/
structure Station where
  auto_restart : Bool
  restart_delay_sec : ℚ
  max_restart_attempts : Nat
deriving DecidableEq, Repr

/-- One enabled playlist item as selected by `writeConcatPlaylist`
(`SELECT filename, duration_sec FROM playlist_items ... AND is_enabled = 1
ORDER BY sort_order ASC`).  `duration` models the nullable REAL column
`duration_sec`. -/
structure Item where
  filename : String
  duration : Option ℚ
deriving DecidableEq, Repr

/-- The database/filesystem environment a start consults: the station row,
the enabled playlist items in order, the highest-priority enabled audio
source (`LIMIT 1`), the enabled RTMP destination urls, and the uploads
directory used to build playlist lines. -/
structure Env where
  station : Option Station
  items : List Item
  audioSource : Option String
  destinations : List String
  uploadsDir : String
deriving DecidableEq, Repr

/-- Supervisor state for one station: the `processes` map entry, the pending
`restartTimers` entry (carrying the scheduled delay in milliseconds), the
now-playing poller, and whether `playlist.txt` exists on disk. -/
structure SupState where
  proc : Option StationProcess
  timer : Option ℚ
  npRunning : Bool
  playlistOnDisk : Bool
deriving DecidableEq, Repr

/-- Status reported by `getStationStatus`: the stored record's status, or the
default `'stopped'` record when the station has no entry. -/
def statusOf (s : SupState) : Status :=
  match s.proc with
  | some p => p.status
  | none => Status.stopped

/-- Restart counter reported by `getStationStatus` (default 0). -/
def countOf (s : SupState) : Nat :=
  match s.proc with
  | some p => p.restartCount
  | none => 0

/-- Last error reported by `getStationStatus` (default empty). -/
def lastErrorOf (s : SupState) : String :=
  match s.proc with
  | some p => p.lastError
  | none => ""

/-- The backoff delay computed in the `close` handler, in milliseconds:
`Math.min(station.restart_delay_sec * 1000 * Math.pow(1.5, restartCount),
60000)`. -/
def delayMs (b : ℚ) (n : Nat) : ℚ :=
  min (b * 1000 * (3 / 2) ^ n) 60000

/-- Message recorded by the `close` handler:
`FFmpeg exited with code ${code}` (the exit code is `null` when the process
was terminated by a signal). -/
def exitMsg (code : Option Int) : String :=
  "FFmpeg exited with code " ++ (match code with
    | some c => toString c
    | none => "null")

/-- The `ffmpeg.on('close')` handler: when the recorded status is not
`'stopped'`, transition to `'error'`, record the exit reason, and — if
`auto_restart` is set and the counter is below `max_restart_attempts` —
compute the backoff delay from the current counter, increment the counter,
and schedule the restart timer with that delay. -/
def onClose (st : Station) (code : Option Int) (s : SupState) : SupState :=
  match s.proc with
  | none => s
  | some p =>
    if p.status = Status.stopped then s
    else
      let p1 : StationProcess := { p with status := Status.error, lastError := exitMsg code }
      if st.auto_restart = true ∧ p1.restartCount < st.max_restart_attempts then
        { s with
            proc := some { p1 with restartCount := p1.restartCount + 1 },
            timer := some (delayMs st.restart_delay_sec p1.restartCount) }
      else
        { s with proc := some p1 }

/-- The `ffmpeg.on('error')` handler (spawn failure, e.g. missing
executable): set status `'error'` and record the message; it schedules
nothing itself. -/
def onError (msg : String) (s : SupState) : SupState :=
  match s.proc with
  | none => s
  | some p => { s with proc := some { p with status := Status.error, lastError := msg } }

/-- `stopStation`: if the record holds a process handle, set its status to
`'stopped'` (before the termination signal), stop the now-playing poller,
and clear any pending restart timer. -/
def stopStation (s : SupState) : SupState :=
  let s1 : SupState :=
    match s.proc with
    | some p =>
      if p.hasFFmpeg = true then { s with proc := some { p with status := Status.stopped } }
      else s
    | none => s
  { s1 with npRunning := false, timer := none }

/-- `setProcessStatus`: update (or create with defaults) the map entry with
the given status and error message. -/
def setProcessStatus (s : SupState) (st : Status) (err : String) : SupState :=
  match s.proc with
  | some p => { s with proc := some { p with status := st, lastError := err } }
  | none =>
    { s with proc := some { hasFFmpeg := false, status := st, restartCount := 0, lastError := err } }

/-- Effective per-item duration used when summing:
`i.duration_sec || 300` — the 300-second fallback applies to a missing
(`NULL`) duration and, by JavaScript falsiness, to a zero duration. -/
def effDur (d : Option ℚ) : ℚ :=
  match d with
  | none => 300
  | some x => if x = 0 then 300 else x

/-- `totalDurationSec`: `items.reduce((sum, i) => sum + (i.duration_sec || 300), 0)`. -/
def totalDurationSec (items : List Item) : ℚ :=
  items.foldl (fun acc i => acc + effDur i.duration) 0

/-- Target coverage window: `hoursTarget = 24` hours, in seconds. -/
def targetWindowSec : ℚ := 24 * 3600

/-- Repeat count `Math.max(2, Math.ceil((24 * 3600) / totalDurationSec))` as
evaluated by JavaScript numbers: with a zero total the division yields
`Infinity`, the repeat count is not a finite number and the expansion loop
`for (let i = 0; i < repeats; i++)` never terminates — encoded as `none`. -/
def jsRepeats (t : ℚ) : Option Nat :=
  if t = 0 then none
  else some (max 2 ⌈targetWindowSec / t⌉₊)

/-- Manifest lines `file '<uploadsDir>/<filename>'` built from the enabled
items, in playlist order. -/
def playlistLines (uploadsDir : String) (items : List Item) : List String :=
  items.map (fun i => "file \x27" ++ uploadsDir ++ "/" ++ i.filename ++ "\x27")

/-- `writeConcatPlaylist`: the content written (atomically) to
`playlist.txt` — the ordered line list repeated `jsRepeats` times; `none`
when the expansion loop does not terminate. -/
def writeConcatPlaylist (uploadsDir : String) (items : List Item) : Option (List String) :=
  match jsRepeats (totalDurationSec items) with
  | none => none
  | some r => some (List.flatten (List.replicate r (playlistLines uploadsDir items)))

/-- Outcome of a `startStation` call: the resulting supervisor state,
a thrown exception message if any, whether an ffmpeg process was spawned,
and whether the call diverges inside playlist materialization. -/
structure StartResult where
  state : SupState
  thrown : Option String
  spawned : Bool
  diverges : Bool
deriving DecidableEq, Repr

/-- `launchFFmpeg`: check the three launch preconditions in source order
(enabled audio source, enabled destinations, playlist file present); on
failure set status `'error'` with the specific message and spawn nothing;
on success record the new running process, preserving the previous
restart counter (`this.processes.get(stationId)?.restartCount || 0`).
The boolean reports whether a process was spawned. -/
def launchFFmpeg (env : Env) (s : SupState) : SupState × Bool :=
  match env.audioSource with
  | none => (setProcessStatus s Status.error "No audio source", false)
  | some _ =>
    if env.destinations = [] then
      (setProcessStatus s Status.error "No RTMP destinations", false)
    else if s.playlistOnDisk = false then
      (setProcessStatus s Status.error "No playlist", false)
    else
      let s1 := setProcessStatus s Status.starting ""
      let prevCount : Nat :=
        match s1.proc with
        | some p => p.restartCount
        | none => 0
      ({ s1 with
          proc := some
            { hasFFmpeg := true, status := Status.running,
              restartCount := prevCount, lastError := "" } }, true)

/-- Body of `startStation` past the idempotence guard: throw if the station
row is missing, materialize the playlist (divergent when the repeat count is
infinite), start the now-playing poller, then launch. -/
def startStationBody (env : Env) (s : SupState) : StartResult :=
  match env.station with
  | none => ⟨s, some "Station not found", false, false⟩
  | some _ =>
    match writeConcatPlaylist env.uploadsDir env.items with
    | none => ⟨s, none, false, true⟩
    | some _ =>
      let s1 : SupState := { s with playlistOnDisk := true, npRunning := true }
      let r := launchFFmpeg env s1
      ⟨r.1, none, r.2, false⟩

/-- `startStation`: a no-op returning immediately when the existing record
is `'running'` or `'starting'`; otherwise run the body. -/
def startStation (env : Env) (s : SupState) : StartResult :=
  match s.proc with
  | some p =>
    if p.status = Status.running ∨ p.status = Status.starting then ⟨s, none, false, false⟩
    else startStationBody env s
  | none => startStationBody env s

/-- Settle delay awaited by `restartStation` between stop and start, in
milliseconds (`await new Promise(r => setTimeout(r, 1500))`). -/
def restartSettleDelayMs : ℚ := 1500

/-- Counter reset performed by `restartStation`
(`const proc = this.processes.get(stationId); if (proc) proc.restartCount = 0`). -/
def resetCounter (s : SupState) : SupState :=
  match s.proc with
  | some p => { s with proc := some { p with restartCount := 0 } }
  | none => s

/-- `restartStation`: stop, wait the settle delay, reset the restart counter
to zero (when a record exists), then start. -/
def restartStation (env : Env) (s : SupState) : StartResult :=
  startStation env (resetCounter (stopStation s))

/-- Asynchronous events that can fire for a station without any explicit
API call: a process `close` event, or the pending restart timer firing
(which re-runs `launchFFmpeg` with the captured configuration). -/
inductive AutoEvent
  | close (code : Option Int)
  | timerFire
deriving DecidableEq, Repr

/-- Effect of one asynchronous event on the supervisor state.  A timer can
only fire while it is pending; firing consumes it and re-launches. -/
def autoStep (env : Env) (st : Station) (s : SupState) : AutoEvent → SupState
  | AutoEvent.close code => onClose st code s
  | AutoEvent.timerFire =>
    match s.timer with
    | some _ => (launchFFmpeg env { s with timer := none }).1
    | none => s

/-- Whether the event makes an automatic restart fire in state `s` (the
pending timer firing is the only way a restart launches). -/
def firesRestart (s : SupState) : AutoEvent → Bool
  | AutoEvent.close _ => false
  | AutoEvent.timerFire => s.timer.isSome

/-- Run a sequence of asynchronous events; the boolean records whether any
automatic restart fired along the way. -/
def runAuto (env : Env) (st : Station) (s : SupState) : List AutoEvent → SupState × Bool
  | [] => (s, false)
  | e :: es =>
    let r := runAuto env st (autoStep env st s e) es
    (r.1, firesRestart s e || r.2)

/-- Boolean prefix test on character lists (models `String.prototype` prefix
matching inside `indexOf`). -/
def isPre : List Char → List Char → Bool
  | [], _ => true
  | _ :: _, [] => false
  | a :: as, b :: bs => a == b && isPre as bs

/-- `text.indexOf(pat)` on character lists: index of the first occurrence,
`none` when absent. -/
def jsIndexOf (pat : List Char) : List Char → Option Nat
  | [] => if pat = [] then some 0 else none
  | c :: rest =>
    if isPre pat (c :: rest) = true then some 0
    else (jsIndexOf pat rest).map (· + 1)

/-- The literal separator `" - "` searched for by the track parser. -/
def sepDash : List Char := [' ', '-', ' ']

/-- JavaScript `String.prototype.trim` restricted to the ASCII whitespace
the tracks contain. -/
def trimL (s : List Char) : List Char :=
  ((s.dropWhile Char.isWhitespace).reverse.dropWhile Char.isWhitespace).reverse

/-- Parsed track info (`artist`, `title`, `full`) as character lists. -/
structure TrackInfo where
  artist : List Char
  title : List Char
  full : List Char
deriving DecidableEq, Repr

/-- `parseTrackString`: empty input gives all-empty info; when
`text.indexOf(' - ')` is positive, split there and trim both sides;
otherwise (separator absent, or found at index 0) the whole string is the
title with empty artist. -/
def parseTrackString (text : List Char) : TrackInfo :=
  if text = [] then ⟨[], [], []⟩
  else
    match jsIndexOf sepDash text with
    | some i =>
      if 0 < i then ⟨trimL (text.take i), trimL (text.drop (i + 3)), text⟩
      else ⟨[], text, text⟩
    | none => ⟨[], text, text⟩

/-- Occurrence of `pat` at index `i` of `s`. -/
def occursAt (pat s : List Char) (i : Nat) : Prop :=
  pat <+: s.drop i

instance (pat s : List Char) (i : Nat) : Decidable (occursAt pat s i) :=
  inferInstanceAs (Decidable (pat <+: s.drop i))

/-- Example station row with the schema defaults
(`auto_restart 1`, `restart_delay_sec 5`, `max_restart_attempts 10`). -/
def exStation : Station := ⟨true, 5, 10⟩

/-- Example enabled playlist item. -/
def exItem : Item := ⟨"a.mp4", some 10⟩

/-- Environment with no station row (unknown station id). -/
def envNoStation : Env := ⟨none, [], none, [], "up"⟩

/-- Environment whose station has no enabled audio source. -/
def envNoAudio : Env := ⟨some exStation, [exItem], none, [], "up"⟩

/-- Fully configured environment. -/
def envFull : Env := ⟨some exStation, [exItem], some "http://a/s", ["rtmp://x/live"], "up"⟩

/-- Fresh supervisor state: no record, no timer, nothing on disk. -/
def exIdle : SupState := ⟨none, none, false, false⟩

/-- State with a spawned, running process. -/
def exRunning : SupState := ⟨some ⟨true, Status.running, 3, ""⟩, none, true, true⟩

/-- State in `'error'` with a pending restart timer. -/
def exErrTimer : SupState := ⟨some ⟨true, Status.error, 2, "boom"⟩, some 5000, true, true⟩

/-- State whose restart budget is exhausted (counter at the maximum). -/
def exExhausted : SupState := ⟨some ⟨true, Status.running, 10, ""⟩, none, true, true⟩

theorem launch_spawned (env : Env) (s : SupState)
    (h : (launchFFmpeg env s).2 = true) :
    (launchFFmpeg env s).1.proc = some ⟨true, Status.running, countOf s, ""⟩ := by
  unfold launchFFmpeg at h ⊢
  cases ha : env.audioSource with
  | none => simp [ha] at h
  | some u =>
    simp only [ha] at h ⊢
    by_cases hd : env.destinations = []
    · simp [hd] at h
    · by_cases hpl : s.playlistOnDisk = false
      · simp [hd, hpl] at h
      · simp only [hd, hpl, reduceIte, if_neg, if_false]
        unfold setProcessStatus countOf
        cases hp : s.proc <;> simp [hp]

theorem start_spawned_state (env : Env) (t : SupState)
    (h : (startStation env t).spawned = true) :
    (startStation env t).state.proc = some ⟨true, Status.running, countOf t, ""⟩ := by
  unfold startStation at h ⊢
  cases ht : t.proc with
  | some p =>
    simp only [ht] at h ⊢
    by_cases hg : p.status = Status.running ∨ p.status = Status.starting
    · simp [hg] at h
    · simp only [hg, reduceIte, if_neg] at h ⊢
      unfold startStationBody at h ⊢
      cases hst : env.station with
      | none => simp [hst] at h
      | some st =>
        simp only [hst] at h ⊢
        cases hw : writeConcatPlaylist env.uploadsDir env.items with
        | none => simp [hw] at h
        | some m =>
          simp only [hw] at h ⊢
          have := launch_spawned env { t with playlistOnDisk := true, npRunning := true } h
          simpa [countOf, ht] using this
  | none =>
    simp only [ht] at h ⊢
    unfold startStationBody at h ⊢
    cases hst : env.station with
    | none => simp [hst] at h
    | some st =>
      simp only [hst] at h ⊢
      cases hw : writeConcatPlaylist env.uploadsDir env.items with
      | none => simp [hw] at h
      | some m =>
        simp only [hw] at h ⊢
        have := launch_spawned env { t with playlistOnDisk := true, npRunning := true } h
        simpa [countOf, ht] using this

/-- C4: while a station's instance is `Starting` or `Running`, `startStation`
is an idempotent no-op — it returns the state unchanged, throws nothing,
spawns nothing; and after any start that did spawn, a second start is such a
no-op, so two successive starts produce at most one live process set. -/
theorem C4_idempotent_start (env : Env) (s : SupState) (p : StationProcess)
    (hp : s.proc = some p)
    (h : p.status = Status.running ∨ p.status = Status.starting) :
    startStation env s = ⟨s, none, false, false⟩ ∧
    (∀ t : SupState, (startStation env t).spawned = true →
      startStation env (startStation env t).state =
        ⟨(startStation env t).state, none, false, false⟩) := by
  constructor
  · unfold startStation
    rw [hp]
    simp [h]
  · intro t ht
    have hq := start_spawned_state env t ht
    generalize hu : (startStation env t).state = u at hq ⊢
    unfold startStation
    rw [hq]
    simp

/-- Witness for C4 at a concrete running state. -/
theorem C4_idempotent_start_witness :
    exRunning.proc = some ⟨true, Status.running, 3, ""⟩ ∧
    startStation envFull exRunning = ⟨exRunning, none, false, false⟩ :=
  ⟨rfl, (C4_idempotent_start envFull exRunning ⟨true, Status.running, 3, ""⟩ rfl
    (Or.inl rfl)).1⟩

/-- C2: for every base delay `b > 0` and restart count `n`, the close
handler's backoff delay equals `min(b * 1.5 ^ n, 60)` seconds (computed in
milliseconds), is non-decreasing in `n`, never exceeds 60 seconds, and a
scheduling close event stores exactly that delay in the restart timer while
the stored counter becomes `n + 1` (the delay is computed from the
pre-increment counter). -/
theorem C2_backoff_delay (b : ℚ) (hb : 0 < b) (n : Nat) :
    delayMs b n = 1000 * min (b * (3 / 2) ^ n) 60 ∧
    delayMs b n ≤ delayMs b (n + 1) ∧
    delayMs b n ≤ 60000 ∧
    (∀ (st : Station) (s : SupState) (p : StationProcess) (code : Option Int),
      st.restart_delay_sec = b → s.proc = some p → p.restartCount = n →
      p.status ≠ Status.stopped → st.auto_restart = true →
      n < st.max_restart_attempts →
      (onClose st code s).timer = some (delayMs b n) ∧
      countOf (onClose st code s) = n + 1) := by
  refine ⟨?_, ?_, ?_, ?_⟩
  · unfold delayMs
    rw [show b * 1000 * (3 / 2 : ℚ) ^ n = 1000 * (b * (3 / 2) ^ n) by ring,
      show (60000 : ℚ) = 1000 * 60 by norm_num]
    exact (mul_min_of_nonneg _ _ (by norm_num)).symm
  · unfold delayMs
    apply min_le_min _ le_rfl
    have hp : (0 : ℚ) < (3 / 2) ^ n := pow_pos (by norm_num) n
    have hstep : (3 / 2 : ℚ) ^ (n + 1) = (3 / 2) ^ n * (3 / 2) := pow_succ _ _
    nlinarith [hp, hb]
  · exact min_le_right _ _
  · intro st s p code hb' hp hn hns ha hlt
    unfold onClose
    rw [hp]
    simp only [hns, reduceIte, if_neg]
    have hcond : st.auto_restart = true ∧ p.restartCount < st.max_restart_attempts := by
      exact ⟨ha, by rw [hn]; exact hlt⟩
    simp [hcond, countOf, hb', hn, hlt]

/-- Witness for C2 at base delay 5 and count 2 (the schema default delay). -/
theorem C2_backoff_delay_witness :
    (0 : ℚ) < 5 ∧ delayMs 5 2 ≤ 60000 ∧ delayMs 5 2 ≤ delayMs 5 3 :=
  ⟨by norm_num, (C2_backoff_delay 5 (by norm_num) 2).2.2.1,
    (C2_backoff_delay 5 (by norm_num) 2).2.1⟩

theorem runAuto_fixed (env : Env) (st : Station) (s : SupState)
    (hstep : ∀ e, autoStep env st s e = s)
    (hfire : ∀ e, firesRestart s e = false) :
    ∀ evs, runAuto env st s evs = (s, false) := by
  intro evs
  induction evs with
  | nil => rfl
  | cons e es ih =>
    simp only [runAuto, hstep e, ih, hfire e]
    simp

/-- C1: once `stopStation` completes, the restart timer is cleared and the
recorded state is `Stopped`; a process-exit callback that observes the
`Stopped` state leaves the state entirely unchanged (no error transition,
no scheduled restart), and along any sequence of asynchronous events no
automatic restart ever fires. -/
theorem C1_stop_suppresses_restart (env : Env) (st : Station) (s : SupState)
    (p : StationProcess) (hp : s.proc = some p) (hff : p.hasFFmpeg = true) :
    (stopStation s).timer = none ∧
    statusOf (stopStation s) = Status.stopped ∧
    (∀ code, onClose st code (stopStation s) = stopStation s) ∧
    (∀ evs, runAuto env st (stopStation s) evs = (stopStation s, false)) := by
  have hs' : stopStation s =
      { proc := some { p with status := Status.stopped }, timer := none,
        npRunning := false, playlistOnDisk := s.playlistOnDisk } := by
    unfold stopStation
    rw [hp]
    simp [hff]
  have hclose : ∀ code, onClose st code (stopStation s) = stopStation s := by
    intro code
    rw [hs']
    unfold onClose
    simp
  refine ⟨by rw [hs'], by rw [hs']; rfl, hclose, ?_⟩
  apply runAuto_fixed
  · intro e
    cases e with
    | close code => exact hclose code
    | timerFire =>
      unfold autoStep
      rw [hs']
  · intro e
    cases e with
    | close code => rfl
    | timerFire =>
      unfold firesRestart
      rw [hs']
      rfl

/-- Witness for C1 at a state in `Error` with a pending restart timer. -/
theorem C1_stop_suppresses_restart_witness :
    exErrTimer.proc = some ⟨true, Status.error, 2, "boom"⟩ ∧
    (stopStation exErrTimer).timer = none ∧
    statusOf (stopStation exErrTimer) = Status.stopped :=
  ⟨rfl,
    (C1_stop_suppresses_restart envFull exStation exErrTimer
      ⟨true, Status.error, 2, "boom"⟩ rfl rfl).1,
    (C1_stop_suppresses_restart envFull exStation exErrTimer
      ⟨true, Status.error, 2, "boom"⟩ rfl rfl).2.1⟩

theorem exhausted_runAuto (env : Env) (st : Station) (n : Nat)
    (hn : st.max_restart_attempts ≤ n) :
    ∀ (evs : List AutoEvent) (s : SupState) (q : StationProcess),
      s.proc = some q → q.status = Status.error → q.restartCount = n →
      s.timer = none →
      (runAuto env st s evs).2 = false ∧
      ∃ r, (runAuto env st s evs).1.proc = some r ∧ r.status = Status.error ∧
        r.restartCount = n ∧ (runAuto env st s evs).1.timer = none := by
  intro evs
  induction evs with
  | nil =>
    intro s q hq hs hc ht
    exact ⟨rfl, q, hq, hs, hc, ht⟩
  | cons e es ih =>
    intro s q hq hs hc ht
    have hnotlt : ¬ q.restartCount < st.max_restart_attempts := by omega
    cases e with
    | close code =>
      have hstep : autoStep env st s (AutoEvent.close code) =
          { s with proc := some { q with status := Status.error, lastError := exitMsg code } } := by
        unfold autoStep onClose
        rw [hq]
        simp [hs, hnotlt]
      obtain ⟨h1, r, hr1, hr2, hr3, hr4⟩ :=
        ih { s with proc := some { q with status := Status.error, lastError := exitMsg code } }
          { q with status := Status.error, lastError := exitMsg code }
          rfl rfl (by simpa using hc) (by simpa using ht)
      refine ⟨?_, r, ?_, hr2, hr3, ?_⟩
      · simp only [runAuto, hstep, firesRestart, h1]
        simp
      · simp only [runAuto, hstep]
        exact hr1
      · simp only [runAuto, hstep]
        exact hr4
    | timerFire =>
      have hstep : autoStep env st s AutoEvent.timerFire = s := by
        unfold autoStep
        rw [ht]
      obtain ⟨h1, r, hr1, hr2, hr3, hr4⟩ := ih s q hq hs hc ht
      refine ⟨?_, r, ?_, hr2, hr3, ?_⟩
      · simp only [runAuto, hstep, firesRestart, ht, h1]
        simp
      · simp only [runAuto, hstep]
        exact hr1
      · simp only [runAuto, hstep]
        exact hr4

/-- C3: when the restart counter has reached `max_restart_attempts`, a
further process exit with state not `Stopped` sets the state to `Error`
without changing the counter and without scheduling a restart timer; and
with no timer pending, any further sequence of asynchronous events keeps
the pipeline in `Error` with the same counter, no timer and no restart
firing, until an explicit start/restart. -/
theorem C3_budget_exhaustion (env : Env) (st : Station) (s : SupState)
    (p : StationProcess) (code : Option Int) (hp : s.proc = some p)
    (hns : p.status ≠ Status.stopped)
    (hmax : st.max_restart_attempts ≤ p.restartCount) :
    (∃ q, (onClose st code s).proc = some q ∧ q.status = Status.error ∧
      q.restartCount = p.restartCount) ∧
    (onClose st code s).timer = s.timer ∧
    (s.timer = none → ∀ evs,
      (runAuto env st (onClose st code s) evs).2 = false ∧
      ∃ r, (runAuto env st (onClose st code s) evs).1.proc = some r ∧
        r.status = Status.error ∧ r.restartCount = p.restartCount ∧
        (runAuto env st (onClose st code s) evs).1.timer = none) := by
  have hnotlt : ¬ p.restartCount < st.max_restart_attempts := by omega
  have honc : onClose st code s =
      { s with proc := some { p with status := Status.error, lastError := exitMsg code } } := by
    unfold onClose
    rw [hp]
    simp [hns, hnotlt]
  refine ⟨⟨{ p with status := Status.error, lastError := exitMsg code },
    by rw [honc], rfl, rfl⟩, by rw [honc], ?_⟩
  intro ht evs
  exact exhausted_runAuto env st p.restartCount hmax evs (onClose st code s)
    { p with status := Status.error, lastError := exitMsg code }
    (by rw [honc]) rfl rfl (by rw [honc]; simpa using ht)

/-- Witness for C3 at a running state whose counter equals the maximum. -/
theorem C3_budget_exhaustion_witness :
    exExhausted.proc = some ⟨true, Status.running, 10, ""⟩ ∧
    exStation.max_restart_attempts ≤ 10 ∧
    (onClose exStation (some 1) exExhausted).timer = exExhausted.timer :=
  ⟨rfl, by decide,
    (C3_budget_exhaustion envFull exStation exExhausted
      ⟨true, Status.running, 10, ""⟩ (some 1) rfl (by decide) (by decide)).2.1⟩

theorem countOf_resetCounter (u : SupState) : countOf (resetCounter u) = 0 := by
  unfold resetCounter countOf
  cases hu : u.proc <;> simp [hu]

theorem start_spawned_count (env : Env) (u : SupState)
    (h : (startStation env u).spawned = true) :
    countOf (startStation env u).state = countOf u := by
  unfold countOf
  rw [start_spawned_state env u h]
  rfl

/-- C5: `restartStation` is stop, a fixed 1.5-second settle delay, a counter
reset to zero, then start — a restart that spawns leaves the counter at 0;
a plain start that spawns preserves the pre-existing counter instead of
resetting it, and neither stop nor the exit/error callbacks ever reset the
counter (the exit callback can only keep or increment it). -/
theorem C5_restart_resets_counter (env : Env) (s : SupState) (p : StationProcess)
    (hp : s.proc = some p) :
    restartSettleDelayMs = 1500 ∧
    restartStation env s = startStation env (resetCounter (stopStation s)) ∧
    ((restartStation env s).spawned = true →
      countOf (restartStation env s).state = 0) ∧
    (∀ (t : SupState) (q : StationProcess), t.proc = some q →
      (startStation env t).spawned = true →
      countOf (startStation env t).state = q.restartCount) ∧
    countOf (stopStation s) = p.restartCount ∧
    (∀ (st : Station) (code : Option Int),
      countOf (onClose st code s) = p.restartCount ∨
      countOf (onClose st code s) = p.restartCount + 1) ∧
    (∀ msg, countOf (onError msg s) = p.restartCount) := by
  refine ⟨rfl, rfl, ?_, ?_, ?_, ?_, ?_⟩
  · intro hsp
    have := start_spawned_count env (resetCounter (stopStation s)) hsp
    rw [show restartStation env s = startStation env (resetCounter (stopStation s)) from rfl]
    rw [this, countOf_resetCounter]
  · intro t q ht hsp
    rw [start_spawned_count env t hsp]
    unfold countOf
    rw [ht]
  · unfold stopStation countOf
    rw [hp]
    by_cases hff : p.hasFFmpeg = true <;> simp [hff, hp]
  · intro st code
    unfold onClose countOf
    rw [hp]
    by_cases hstop : p.status = Status.stopped
    · simp [hstop, hp]
    · by_cases hcond : st.auto_restart = true ∧ p.restartCount < st.max_restart_attempts
      · right
        simp [hstop, hcond]
      · left
        simp [hstop, hcond]
  · intro msg
    unfold onError countOf
    rw [hp]

/-- Witness for C5 at a running state with counter 3. -/
theorem C5_restart_resets_counter_witness :
    exRunning.proc = some ⟨true, Status.running, 3, ""⟩ ∧
    restartSettleDelayMs = 1500 ∧
    countOf (stopStation exRunning) = 3 :=
  ⟨rfl,
    (C5_restart_resets_counter envFull exRunning ⟨true, Status.running, 3, ""⟩ rfl).1,
    (C5_restart_resets_counter envFull exRunning ⟨true, Status.running, 3, ""⟩ rfl).2.2.2.2.1⟩

/-- C7: a spawn failure reported through the process `error` callback puts
the pipeline in `Error` with the reported message, and the exit callback
that then observes this non-`Stopped` state schedules the same exponential
backoff restart (same delay, same counter increment) as it would for a
plain non-zero process exit. -/
theorem C7_spawn_failure_retried (st : Station) (s : SupState) (p : StationProcess)
    (msg : String) (code : Option Int) (hp : s.proc = some p)
    (hauto : st.auto_restart = true)
    (hcnt : p.restartCount < st.max_restart_attempts) :
    statusOf (onError msg s) = Status.error ∧
    lastErrorOf (onError msg s) = msg ∧
    (onClose st code (onError msg s)).timer =
      some (delayMs st.restart_delay_sec p.restartCount) ∧
    countOf (onClose st code (onError msg s)) = p.restartCount + 1 ∧
    (p.status ≠ Status.stopped →
      (onClose st code (onError msg s)).timer = (onClose st code s).timer) := by
  have herr : onError msg s =
      { s with proc := some { p with status := Status.error, lastError := msg } } := by
    unfold onError
    rw [hp]
  have honc : (onClose st code (onError msg s)).timer =
        some (delayMs st.restart_delay_sec p.restartCount) ∧
      countOf (onClose st code (onError msg s)) = p.restartCount + 1 := by
    rw [herr]
    unfold onClose countOf
    simp [hauto, hcnt]
  refine ⟨by rw [herr]; rfl, by rw [herr]; rfl, honc.1, honc.2, ?_⟩
  intro hns
  rw [honc.1]
  unfold onClose
  rw [hp]
  simp [hns, hauto, hcnt]

/-- Witness for C7 at a running state with counter 3 under the default
station configuration. -/
theorem C7_spawn_failure_retried_witness :
    exRunning.proc = some ⟨true, Status.running, 3, ""⟩ ∧
    (3 : Nat) < exStation.max_restart_attempts ∧
    statusOf (onError "spawn ffmpeg ENOENT" exRunning) = Status.error ∧
    (onClose exStation none (onError "spawn ffmpeg ENOENT" exRunning)).timer =
      some (delayMs exStation.restart_delay_sec 3) :=
  ⟨rfl, by decide,
    (C7_spawn_failure_retried exStation exRunning ⟨true, Status.running, 3, ""⟩
      "spawn ffmpeg ENOENT" none rfl rfl (by decide)).1,
    (C7_spawn_failure_retried exStation exRunning ⟨true, Status.running, 3, ""⟩
      "spawn ffmpeg ENOENT" none rfl rfl (by decide)).2.2.1⟩

theorem start_noguard (env : Env) (s : SupState)
    (hguard : ∀ p, s.proc = some p →
      p.status ≠ Status.running ∧ p.status ≠ Status.starting) :
    startStation env s = startStationBody env s := by
  unfold startStation
  cases hp : s.proc with
  | none => rfl
  | some p =>
    have h := hguard p hp
    simp [h.1, h.2]

/-- C6 counterexample: with no station row, `startStation` throws
`Station not found` and leaves the supervisor state untouched — the
reported status stays the default `Stopped` and is not `Error`, contrary
to the claim that all four precondition failures set the state to
`Error`. -/
theorem C6_counterexample :
    (startStation envNoStation exIdle).thrown = some "Station not found" ∧
    (startStation envNoStation exIdle).state = exIdle ∧
    statusOf (startStation envNoStation exIdle).state ≠ Status.error :=
  ⟨rfl, rfl, by decide⟩

/-- C6 amended: when no idempotence guard applies, a start for a missing
station fails before spawning by throwing a descriptive error, leaving the
state untouched; a missing enabled audio source, a missing enabled
destination, and a missing materialized playlist file each fail before
spawning with state `Error` and a specific message, scheduling no retry
timer. -/
theorem C6_precondition_failures (env : Env) (s : SupState)
    (hguard : ∀ p, s.proc = some p →
      p.status ≠ Status.running ∧ p.status ≠ Status.starting) :
    (env.station = none →
      startStation env s = ⟨s, some "Station not found", false, false⟩) ∧
    (env.station.isSome = true → env.audioSource = none →
      (writeConcatPlaylist env.uploadsDir env.items).isSome = true →
      (startStation env s).spawned = false ∧
      statusOf (startStation env s).state = Status.error ∧
      lastErrorOf (startStation env s).state = "No audio source" ∧
      (startStation env s).state.timer = s.timer) ∧
    (env.station.isSome = true → env.audioSource.isSome = true →
      env.destinations = [] →
      (writeConcatPlaylist env.uploadsDir env.items).isSome = true →
      (startStation env s).spawned = false ∧
      statusOf (startStation env s).state = Status.error ∧
      lastErrorOf (startStation env s).state = "No RTMP destinations" ∧
      (startStation env s).state.timer = s.timer) ∧
    (s.playlistOnDisk = false → env.audioSource.isSome = true →
      env.destinations ≠ [] →
      (launchFFmpeg env s).2 = false ∧
      statusOf (launchFFmpeg env s).1 = Status.error ∧
      lastErrorOf (launchFFmpeg env s).1 = "No playlist" ∧
      (launchFFmpeg env s).1.timer = s.timer) := by
  have hng := start_noguard env s hguard
  refine ⟨?_, ?_, ?_, ?_⟩
  · intro hst
    rw [hng]
    unfold startStationBody
    rw [hst]
  · intro hst haud hw
    obtain ⟨st, hst'⟩ := Option.isSome_iff_exists.mp hst
    obtain ⟨m, hm⟩ := Option.isSome_iff_exists.mp hw
    rw [hng]
    unfold startStationBody
    rw [hst', hm]
    unfold launchFFmpeg
    rw [haud]
    unfold setProcessStatus statusOf lastErrorOf
    cases hsp : s.proc <;> simp [hsp]
  · intro hst haud hd hw
    obtain ⟨st, hst'⟩ := Option.isSome_iff_exists.mp hst
    obtain ⟨u, haud'⟩ := Option.isSome_iff_exists.mp haud
    obtain ⟨m, hm⟩ := Option.isSome_iff_exists.mp hw
    rw [hng]
    unfold startStationBody
    rw [hst', hm]
    unfold launchFFmpeg
    rw [haud']
    unfold setProcessStatus statusOf lastErrorOf
    cases hsp : s.proc <;> simp [hsp, hd]
  · intro hpl haud hd
    obtain ⟨u, haud'⟩ := Option.isSome_iff_exists.mp haud
    unfold launchFFmpeg
    rw [haud']
    unfold setProcessStatus statusOf lastErrorOf
    cases hsp : s.proc <;> simp [hsp, hd, hpl]

/-- Witness for C6 amended: station configured but no enabled audio
source. -/
theorem writeConcat_isSome_iff (up : String) (items : List Item) :
    (writeConcatPlaylist up items).isSome = true ↔ totalDurationSec items ≠ 0 := by
  unfold writeConcatPlaylist jsRepeats
  by_cases ht : totalDurationSec items = 0 <;> simp [ht]

theorem C6_precondition_failures_witness :
    exIdle.proc = none ∧
    (startStation envNoAudio exIdle).spawned = false ∧
    statusOf (startStation envNoAudio exIdle).state = Status.error ∧
    lastErrorOf (startStation envNoAudio exIdle).state = "No audio source" := by
  have hg : ∀ p, exIdle.proc = some p →
      p.status ≠ Status.running ∧ p.status ≠ Status.starting := by
    intro p hp
    simp [exIdle] at hp
  have hw : (writeConcatPlaylist envNoAudio.uploadsDir envNoAudio.items).isSome = true :=
    (writeConcat_isSome_iff _ _).mpr
      (by norm_num [envNoAudio, exItem, totalDurationSec, effDur])
  have h := (C6_precondition_failures envNoAudio exIdle hg).2.1 rfl rfl hw
  exact ⟨rfl, h.1, h.2.1, h.2.2.1⟩

theorem totalDuration_shift (items : List Item) (a : ℚ) :
    items.foldl (fun acc i => acc + effDur i.duration) a = a + totalDurationSec items := by
  induction items generalizing a with
  | nil => simp [totalDurationSec]
  | cons i is ih =>
    unfold totalDurationSec
    simp only [List.foldl_cons]
    rw [ih, ih (0 + effDur i.duration)]
    ring

theorem totalDuration_cons (i : Item) (is : List Item) :
    totalDurationSec (i :: is) = effDur i.duration + totalDurationSec is := by
  have h : totalDurationSec (i :: is)
      = is.foldl (fun acc j => acc + effDur j.duration) (0 + effDur i.duration) := rfl
  rw [h, totalDuration_shift]
  ring

theorem effDur_pos (d : Option ℚ) (h : ∀ q, d = some q → 0 ≤ q) :
    0 < effDur d := by
  unfold effDur
  cases d with
  | none => norm_num
  | some x =>
    by_cases hx : x = 0
    · simp only [hx, reduceIte, if_pos]
      norm_num
    · simp only [hx, reduceIte, if_neg]
      exact lt_of_le_of_ne (h x rfl) (Ne.symm hx)

theorem totalDuration_nonneg (items : List Item)
    (h : ∀ i ∈ items, ∀ q, i.duration = some q → 0 ≤ q) :
    0 ≤ totalDurationSec items := by
  induction items with
  | nil => simp [totalDurationSec]
  | cons i is ih =>
    rw [totalDuration_cons]
    have h1 := effDur_pos i.duration (h i (List.mem_cons_self i is))
    have h2 := ih (fun j hj => h j (List.mem_cons_of_mem i hj))
    linarith

theorem totalDuration_pos (items : List Item)
    (h : ∀ i ∈ items, ∀ q, i.duration = some q → 0 ≤ q)
    (hne : items ≠ []) :
    0 < totalDurationSec items := by
  cases items with
  | nil => exact absurd rfl hne
  | cons i is =>
    rw [totalDuration_cons]
    have h1 := effDur_pos i.duration (h i (List.mem_cons_self i is))
    have h2 := totalDuration_nonneg is (fun j hj => h j (List.mem_cons_of_mem i hj))
    linarith

theorem flatten_replicate_length {α : Type} (n : Nat) (l : List α) :
    (List.replicate n l).flatten.length = n * l.length := by
  induction n with
  | zero => simp
  | succ n ih =>
    rw [List.replicate_succ]
    simp only [List.flatten_cons, List.length_append, ih]
    ring

/-- C8: whenever the effective durations (300-second fallback for an
absent — or, by JavaScript falsiness, zero — duration) sum to `D > 0`,
the materialized manifest is exactly the ordered line sequence repeated
`max(2, ceil(targetWindowSec / D))` times with the 24-hour target window
(86400 s); hence it is repeated at least `ceil(targetWindowSec / D)` times
and at least twice. -/
theorem C8_playlist_repeat (up : String) (items : List Item) (D : ℚ)
    (hD : totalDurationSec items = D) (hpos : 0 < D) :
    writeConcatPlaylist up items =
      some (List.flatten (List.replicate (max 2 ⌈targetWindowSec / D⌉₊)
        (playlistLines up items))) ∧
    ⌈targetWindowSec / D⌉₊ ≤ max 2 ⌈targetWindowSec / D⌉₊ ∧
    2 ≤ max 2 ⌈targetWindowSec / D⌉₊ ∧
    targetWindowSec = 24 * 3600 ∧
    (List.flatten (List.replicate (max 2 ⌈targetWindowSec / D⌉₊)
      (playlistLines up items))).length =
      max 2 ⌈targetWindowSec / D⌉₊ * items.length := by
  refine ⟨?_, le_max_right _ _, le_max_left _ _, rfl, ?_⟩
  · unfold writeConcatPlaylist jsRepeats
    rw [hD]
    simp [ne_of_gt hpos]
  · rw [flatten_replicate_length]
    unfold playlistLines
    rw [List.length_map]

/-- Witness for C8 at a one-item playlist with duration 10 s. -/
theorem C8_playlist_repeat_witness :
    totalDurationSec [exItem] = 10 ∧ (0 : ℚ) < 10 ∧
    2 ≤ max 2 ⌈targetWindowSec / (10 : ℚ)⌉₊ :=
  ⟨by norm_num [totalDurationSec, effDur, exItem], by norm_num,
    (C8_playlist_repeat "up" [exItem] 10
      (by norm_num [totalDurationSec, effDur, exItem]) (by norm_num)).2.2.1⟩

/-- C10: with nonnegative recorded durations, playlist materialization
terminates (produces a manifest) exactly when the summed effective duration
is positive, which holds whenever at least one enabled item exists; with
zero enabled items the sum is 0, the JavaScript repeat count is infinite and
the expansion loop does not terminate (`none`). -/
theorem C10_materialization_termination (up : String) (items : List Item)
    (h : ∀ i ∈ items, ∀ q, i.duration = some q → 0 ≤ q) :
    (items ≠ [] → 0 < totalDurationSec items ∧
      (writeConcatPlaylist up items).isSome = true) ∧
    totalDurationSec [] = 0 ∧
    writeConcatPlaylist up [] = none ∧
    ((writeConcatPlaylist up items).isSome = true ↔ 0 < totalDurationSec items) := by
  refine ⟨?_, rfl, rfl, ?_⟩
  · intro hne
    have hpos := totalDuration_pos items h hne
    exact ⟨hpos, (writeConcat_isSome_iff up items).mpr (ne_of_gt hpos)⟩
  · rw [writeConcat_isSome_iff]
    constructor
    · intro hne
      exact lt_of_le_of_ne (totalDuration_nonneg items h) (Ne.symm hne)
    · exact ne_of_gt

/-- Witness for C10 at a one-item playlist. -/
theorem C10_materialization_termination_witness :
    (∀ i ∈ [exItem], ∀ q, i.duration = some q → (0 : ℚ) ≤ q) ∧
    writeConcatPlaylist "up" [] = none ∧
    (writeConcatPlaylist "up" [exItem]).isSome = true := by
  have h : ∀ i ∈ [exItem], ∀ q, i.duration = some q → (0 : ℚ) ≤ q := by
    intro i hi q hq
    simp only [List.mem_singleton] at hi
    subst hi
    simp only [exItem] at hq
    injection hq with hq'
    rw [← hq']
    norm_num
  have hc := C10_materialization_termination "up" [exItem] h
  exact ⟨h, hc.2.2.1, (hc.1 (by simp)).2⟩

theorem isPre_iff (p s : List Char) : isPre p s = true ↔ p <+: s := by
  induction p generalizing s with
  | nil => simp [isPre, List.nil_prefix]
  | cons a as ih =>
    cases s with
    | nil => simp [isPre]
    | cons b bs =>
      simp [isPre, List.cons_prefix_cons, ih, Bool.and_eq_true, beq_iff_eq]

theorem jsIndexOf_some_occurs (pat s : List Char) (i : Nat)
    (h : jsIndexOf pat s = some i) : pat <+: List.drop i s := by
  induction s generalizing i with
  | nil =>
    unfold jsIndexOf at h
    by_cases hp : pat = []
    · simp [hp] at h
      simp [hp, ← h]
    · simp [hp] at h
  | cons c rest ih =>
    unfold jsIndexOf at h
    by_cases hpre : isPre pat (c :: rest) = true
    · simp [hpre] at h
      rw [← h]
      exact (isPre_iff pat (c :: rest)).mp hpre
    · simp [hpre, Option.map_eq_some'] at h
      obtain ⟨i', hi', hii⟩ := h
      rw [← hii]
      exact ih i' hi'

theorem first_occurs_jsIndexOf (pat s : List Char) (i : Nat)
    (hocc : pat <+: List.drop i s)
    (hmin : ∀ j, j < i → ¬ pat <+: List.drop j s) :
    jsIndexOf pat s = some i := by
  induction s generalizing i with
  | nil =>
    have hp : pat = [] := List.prefix_nil.mp (by simpa using hocc)
    cases i with
    | zero => simp [jsIndexOf, hp]
    | succ j =>
      exact absurd (by simp [hp]) (hmin 0 (Nat.succ_pos j))
  | cons c rest ih =>
    cases i with
    | zero =>
      unfold jsIndexOf
      have : isPre pat (c :: rest) = true := (isPre_iff _ _).mpr (by simpa using hocc)
      simp [this]
    | succ j =>
      have hnot : ¬ isPre pat (c :: rest) = true := by
        rw [isPre_iff]
        exact fun hcontra => hmin 0 (Nat.succ_pos j) (by simpa using hcontra)
      unfold jsIndexOf
      simp only [hnot, reduceIte, if_neg]
      have hrec := ih j (by simpa using hocc)
        (fun k hk => fun hcontra =>
          hmin (k + 1) (Nat.succ_lt_succ hk) (by simpa using hcontra))
      rw [hrec]
      rfl

/-- C9 counterexample: on the input `" - T"` the separator occurs at index
0, and the parser does not split there — the whole string becomes the
title — whereas the claim as stated demands title `"T"` with empty
artist. -/
theorem C9_track_parsing_counterexample :
    (parseTrackString [' ', '-', ' ', 'T']).title = [' ', '-', ' ', 'T'] ∧
    (parseTrackString [' ', '-', ' ', 'T']).title ≠ ['T'] := by
  constructor
  · decide
  · decide

/-- C9 amended: an empty string parses to empty artist, title and full; if
the first occurrence of `" - "` is at a positive index, the parser splits
there, taking the part before it (whitespace-trimmed) as artist and the
part after it (whitespace-trimmed) as title; if the separator is absent or
its first occurrence is at index 0, the whole string becomes the title with
empty artist. -/
theorem C9_track_parsing_amended (text : List Char) :
    (text = [] → parseTrackString text = ⟨[], [], []⟩) ∧
    (∀ i, occursAt sepDash text i → (∀ j, j < i → ¬ occursAt sepDash text j) →
      (0 < i → parseTrackString text =
        ⟨trimL (List.take i text), trimL (List.drop (i + 3) text), text⟩) ∧
      (i = 0 → parseTrackString text = ⟨[], text, text⟩)) ∧
    ((∀ i, ¬ occursAt sepDash text i) → text ≠ [] →
      parseTrackString text = ⟨[], text, text⟩) := by
  refine ⟨?_, ?_, ?_⟩
  · intro h
    simp [parseTrackString, h]
  · intro i hocc hmin
    have htext : text ≠ [] := by
      intro h
      subst h
      simp [occursAt, sepDash] at hocc
    have hidx : jsIndexOf sepDash text = some i :=
      first_occurs_jsIndexOf sepDash text i hocc hmin
    constructor
    · intro hi
      unfold parseTrackString
      simp [htext, hidx, hi]
    · intro hi
      subst hi
      unfold parseTrackString
      simp [htext, hidx]
  · intro hnone htext
    have hidx : jsIndexOf sepDash text = none := by
      cases h : jsIndexOf sepDash text with
      | none => rfl
      | some i => exact absurd (jsIndexOf_some_occurs sepDash text i h) (hnone i)
    unfold parseTrackString
    simp [htext, hidx]

/-- Witness for C9 amended on `"A - B"` (first separator occurrence at
index 1). -/
theorem C9_track_parsing_amended_witness :
    occursAt sepDash ['A', ' ', '-', ' ', 'B'] 1 ∧
    parseTrackString ['A', ' ', '-', ' ', 'B'] =
      ⟨['A'], ['B'], ['A', ' ', '-', ' ', 'B']⟩ := by
  have h := ((C9_track_parsing_amended ['A', ' ', '-', ' ', 'B']).2.1 1
    (by decide)
    (by
      intro j hj
      have hj0 : j = 0 := by omega
      subst hj0
      decide)).1 (by norm_num)
  refine ⟨by decide, ?_⟩
  rw [h]
  decide

end RadioApp
